import Mathlib

/-!
Verification of the autopackager configuration/command pipeline
(`src/packager_command.rs`) against its natural-language specification.

Text is modelled as `List Char` (`Str`). Rust's `HashMap<String, String>`
is modelled as an association list where an insert conses a new binding in
front and lookup returns the first (that is, most recent) binding, which
agrees with `HashMap::insert`/`get` observationally. The recursive
`substitute_variables` function of the source has no termination guarantee,
so it is embedded as a fuel-indexed interpreter: `none` means the
computation did not finish within the given recursion/loop budget, and a
result that is `none` for every budget corresponds to an infinite
recursion (stack overflow) of the Rust function.
-/

namespace Autopackager

/-- Delimiter characters written via their code points: `$` (36),
left brace (123), right brace (125), single quote (39), backtick (96). -/
def dollarChar : Char := Char.ofNat 36

def lbraceChar : Char := Char.ofNat 123

def rbraceChar : Char := Char.ofNat 125

def aposChar : Char := Char.ofNat 39

def backtickChar : Char := Char.ofNat 96

/-- Text, modelled as a list of characters. -/
abbrev Str := List Char

/-- The character class of the regex `\w` from the pattern
`\$\{(\w+)\}` in `substitute_variables` (ASCII fragment; every name used
by the configuration files and claims is ASCII). -/
def isWordChar (c : Char) : Bool := c.isAlphanum || c = '_'

/-- Maximal `\w*` prefix of a string and the remaining suffix.
Used to model greedy matching of `\w+` followed by the literal brace. -/
def takeWord : Str → Str × Str
  | [] => ([], [])
  | c :: cs =>
    if isWordChar c then
      ((c :: (takeWord cs).1), (takeWord cs).2)
    else
      ([], c :: cs)

/-- Does the regex `\$\{(\w+)\}` match at the very start of the string?
Returns the captured name and the suffix after the closing brace. -/
def matchAt : Str → Option (Str × Str)
  | c1 :: c2 :: rest =>
    if c1 = dollarChar ∧ c2 = lbraceChar then
      match (takeWord rest).2 with
      | c3 :: r =>
        if c3 = rbraceChar ∧ (takeWord rest).1 ≠ [] then
          some ((takeWord rest).1, r)
        else
          none
      | [] => none
    else none
  | _ => none

/-- `Regex::captures` for the pattern `\$\{(\w+)\}`: the leftmost match,
decomposed as (text before the match, captured name, text after the
match). `none` when the pattern does not occur. -/
def findVar : Str → Option (Str × Str × Str)
  | [] => none
  | c :: cs =>
    match matchAt (c :: cs) with
    | some pr => some ([], pr.1, pr.2)
    | none =>
      match findVar cs with
      | none => none
      | some pns => some (c :: pns.1, pns.2.1, pns.2.2)

/-- The `valuemap : HashMap<String, String>` of the source, as an
association list; the first binding for a key is the most recent insert. -/
abbrev Table := List (Str × Str)

/-- `HashMap::get`, first (most recently inserted) binding wins. -/
def lookupTbl : Table → Str → Option Str
  | [], _ => none
  | (k, v) :: rest, name => if k = name then some v else lookupTbl rest name

/-- `substitute_variables` of `src/packager_command.rs` (lines 304-321),
as a fuel-indexed interpreter. The Rust function runs a `while` loop: find
the leftmost `${name}`; if `name` is absent from the map, break and return
the current text; otherwise recursively resolve the map's value for
`name`, splice the resolved value over the matched span, and rescan the
whole text from the start. Both the loop step and the recursive call
consume one unit of fuel here; `none` means the budget was exhausted
before the Rust function would have returned. -/
def substitute_variables : Nat → Str → Table → Option Str
  | 0, _, _ => none
  | Nat.succ n, r, t =>
    match findVar r with
    | none => some r
    | some pns =>
      match lookupTbl t pns.2.1 with
      | none => some r
      | some v =>
        match substitute_variables n v t with
        | none => none
        | some rv => substitute_variables n (pns.1 ++ rv ++ pns.2.2) t

/-- The self-referential name table `{A ↦ "${A}"}` of the spec's
self-reference termination property. -/
def selfTable : Table := [("A".toList, "${A}".toList)]

/-- Claim C1: the spec requires `substitute_variables` to terminate on a
self-referential definition `A = "${A}"` and leave the literal `${A}` in
place. The code instead recurses on the value of `A` before performing
any replacement, so the computation never finishes: for every fuel
budget the interpreter runs out of fuel. This refutes termination and
establishes the divergence (stack overflow) of the Rust function. -/
theorem substitute_variables_self_reference_diverges :
    ∀ n : Nat, substitute_variables n ("${A}".toList) selfTable = none := by
  intro n
  induction n with
  | zero => rfl
  | succ n ih =>
    rw [show substitute_variables (n + 1) ("${A}".toList) selfTable =
        (match substitute_variables n ("${A}".toList) selfTable with
          | none => none
          | some rv =>
              substitute_variables n ([] ++ rv ++ []) selfTable) from rfl]
    rw [ih]

/-- A `define_items` entry: `pub struct DefineItem { key, value }`. -/
structure DefineItem where
  key : Str
  value : Str
deriving DecidableEq

/-- `pub struct Copy { source, destination, gitignore_path, use_gitignore }`. -/
structure Copy where
  source : Str
  destination : Str
  gitignore_path : Str
  use_gitignore : Bool
deriving DecidableEq

/-- `pub struct Replace { source, regex, replacement }`. -/
structure Replace where
  source : Str
  regex : Str
  replacement : Str
deriving DecidableEq

/-- `pub struct Run { command }`. -/
structure Run where
  command : Str
deriving DecidableEq

/-- The tagged command union `pub enum Command { Copy, Replace, Run }`. -/
inductive Command
  | copy (c : Copy)
  | replace (r : Replace)
  | run (r : Run)
deriving DecidableEq

/-- `pub struct Config { define_items, command }`. -/
structure Config where
  define_items : List DefineItem
  command : List Command
deriving DecidableEq

/-- The first loop of `parse_commands_from_yaml` (lines 236-239): every
definition's raw value is inserted into `valuemap` before any resolution
happens. Later inserts shadow earlier ones, as with `HashMap::insert`. -/
def insertRaw (items : List DefineItem) : Table :=
  items.foldl (fun t it => (it.key, it.value) :: t) []

/-- The second loop of `parse_commands_from_yaml` (lines 242-245): each
definition's value is resolved with `substitute_variables` against the
current map, and the result re-inserted under the definition's key.
`none` when some resolution exhausts the fuel budget. -/
def resolveItems (fuel : Nat) : List DefineItem → Table → Option Table
  | [], t => some t
  | it :: rest, t =>
    match substitute_variables fuel it.value t with
    | none => none
    | some v => resolveItems fuel rest ((it.key, v) :: t)

/-- Name-table construction of `parse_commands_from_yaml`: prefill the
map with every raw definition, then resolve each definition in
declaration order. -/
def buildNameTable (fuel : Nat) (items : List DefineItem) : Option Table :=
  resolveItems fuel items (insertRaw items)

/-- The literal reference text `${b}` for a name `b`. -/
def refOf (b : Str) : Str := dollarChar :: lbraceChar :: (b ++ [rbraceChar])

theorem takeWord_append (b : Str) (d : Char) (r : Str)
    (hb : ∀ c ∈ b, isWordChar c = true) (hd : isWordChar d = false) :
    takeWord (b ++ d :: r) = (b, d :: r) := by
  induction b with
  | nil => simp [takeWord, hd]
  | cons c cs ih =>
    have hc : isWordChar c = true := hb c (by simp)
    have ih' := ih (fun x hx => hb x (by simp [hx]))
    simp [takeWord, hc, ih']

theorem matchAt_refOf (b : Str) (hb : b ≠ [])
    (hw : ∀ c ∈ b, isWordChar c = true) :
    matchAt (refOf b) = some (b, []) := by
  have ht := takeWord_append b rbraceChar [] hw (by decide)
  simp [refOf, matchAt, ht, hb]

theorem findVar_refOf (b : Str) (hb : b ≠ [])
    (hw : ∀ c ∈ b, isWordChar c = true) :
    findVar (refOf b) = some ([], b, []) := by
  have hm := matchAt_refOf b hb hw
  show (match matchAt (refOf b) with
    | some pr => some (([] : Str), pr.1, pr.2)
    | none =>
      match findVar (lbraceChar :: (b ++ [rbraceChar])) with
      | none => none
      | some pns => some (dollarChar :: pns.1, pns.2.1, pns.2.2)) =
    some ([], b, [])
  rw [hm]

/-- One resolution layer: on a variable-free value the loop exits at the
first scan, for any positive fuel. -/
theorem substitute_variables_noref (n : Nat) (v : Str) (t : Table)
    (h : findVar v = none) :
    substitute_variables (n + 1) v t = some v := by
  rw [show substitute_variables (n + 1) v t =
      (match findVar v with
        | none => some v
        | some pns =>
          match lookupTbl t pns.2.1 with
          | none => some v
          | some w =>
            match substitute_variables n w t with
            | none => none
            | some rv =>
                substitute_variables n (pns.1 ++ rv ++ pns.2.2) t) from rfl]
  rw [h]

/-- Resolving the single reference `${b}` when the table maps `b` to a
variable-free value: the reference is replaced by that value. -/
theorem substitute_variables_single_ref (n : Nat) (b v : Str) (t : Table)
    (hb : b ≠ []) (hw : ∀ c ∈ b, isWordChar c = true)
    (hl : lookupTbl t b = some v) (hv : findVar v = none) :
    substitute_variables (n + 2) (refOf b) t = some v := by
  rw [show substitute_variables (n + 2) (refOf b) t =
      (match findVar (refOf b) with
        | none => some (refOf b)
        | some pns =>
          match lookupTbl t pns.2.1 with
          | none => some (refOf b)
          | some w =>
            match substitute_variables (n + 1) w t with
            | none => none
            | some rv =>
                substitute_variables (n + 1) (pns.1 ++ rv ++ pns.2.2) t)
      from rfl]
  rw [findVar_refOf b hb hw]
  simp only [hl, substitute_variables_noref n v t hv, List.nil_append,
    List.append_nil]

/-- Claim C3, counterexample: with `define_items = [A = "${B}", B = "x"]`
the definition `A` references the key `B` declared *later*, yet the
resulting name table maps `A` to the fully resolved `"x"`, not to the
verbatim `"${B}"`: the first loop of `parse_commands_from_yaml` prefills
the map with every raw definition, so resolution is not restricted to the
definitions declared before the current one. -/
theorem forward_reference_resolves_cex :
    (buildNameTable 5 [⟨"A".toList, "${B}".toList⟩, ⟨"B".toList, "x".toList⟩]).bind
        (fun t => lookupTbl t ("A".toList)) = some ("x".toList) ∧
      ("x".toList : Str) ≠ "${B}".toList := by
  decide

/-- Claim C3, amended: during name-table construction each definition is
resolved against the map holding *every* definition (later ones raw from
the prefill pass, earlier ones already resolved), so a forward reference
`a = "${b}"` to a definition `b = vb` declared later resolves to `vb`
(recursively resolved) instead of remaining verbatim. Stated for the
two-definition schema with a variable-free `vb`. -/
theorem forward_reference_resolves (a b vb : Str) (hb : b ≠ [])
    (hw : ∀ c ∈ b, isWordChar c = true) (hv : findVar vb = none)
    (hab : a ≠ b) :
    (buildNameTable 3 [⟨a, refOf b⟩, ⟨b, vb⟩]).bind
      (fun t => lookupTbl t a) = some vb := by
  have hraw : insertRaw [⟨a, refOf b⟩, ⟨b, vb⟩] = [(b, vb), (a, refOf b)] := by
    simp [insertRaw]
  have hlk : lookupTbl [(b, vb), (a, refOf b)] b = some vb := by
    simp [lookupTbl]
  have h1 : substitute_variables 3 (refOf b) [(b, vb), (a, refOf b)] =
      some vb :=
    substitute_variables_single_ref 1 b vb _ hb hw hlk hv
  have h2 : substitute_variables 3 vb
      ((a, vb) :: [(b, vb), (a, refOf b)]) = some vb :=
    substitute_variables_noref 2 vb _ hv
  have hba : ¬ (b = a) := fun h => hab h.symm
  simp [buildNameTable, hraw, resolveItems, h1, h2, lookupTbl, hba]

/-- Witness for `forward_reference_resolves` at `a = "A"`, `b = "B"`,
`vb = "x"`. -/
theorem forward_reference_resolves_witness :
    (buildNameTable 3 [⟨"A".toList, refOf ("B".toList)⟩,
        ⟨"B".toList, "x".toList⟩]).bind
      (fun t => lookupTbl t ("A".toList)) = some ("x".toList) :=
  forward_reference_resolves ("A".toList) ("B".toList) ("x".toList)
    (by decide) (by decide) (by decide) (by decide)

/-- Per-variant dispatch of `execute_commands` (lines 203-207). The three
executors perform I/O, so they are modelled as state-passing oracles over
an abstract effect state `σ`: each returns the new state together with the
`Result<()>` of the Rust executor. -/
def dispatch {σ E : Type} (ec : Copy → σ → σ × Except E Unit)
    (er : Replace → σ → σ × Except E Unit)
    (eu : Run → σ → σ × Except E Unit) :
    Command → σ → σ × Except E Unit
  | Command.copy c => ec c
  | Command.replace r => er r
  | Command.run r => eu r

/-- The iterator chain of `execute_commands`
(`map` + `partition_map`, lines 201-215): run every command in order,
threading the effect state, and collect the errors of the failing
commands in encounter order. -/
def runAll {σ E : Type} (d : Command → σ → σ × Except E Unit) :
    List Command → σ → σ × List E
  | [], s => (s, [])
  | c :: cs, s =>
    let r := d c s
    let rest := runAll d cs r.1
    (rest.1, match r.2 with
      | Except.ok _ => rest.2
      | Except.error e => e :: rest.2)

/-- `execute_commands` of `src/packager_command.rs` (lines 199-224):
partition the per-command results, return `Ok(())` when the error
collection is empty and `Err(errors)` otherwise. -/
def execute_commands {σ E : Type} (ec : Copy → σ → σ × Except E Unit)
    (er : Replace → σ → σ × Except E Unit)
    (eu : Run → σ → σ × Except E Unit)
    (cmds : List Command) (s : σ) : σ × Except (List E) Unit :=
  let p := runAll (dispatch ec er eu) cmds s
  (p.1, if p.2.isEmpty then Except.ok () else Except.error p.2)

/-- Specification-side description of the ordered list of errors of the
failing commands: walk the command list in order, thread the state, and
keep exactly the errors, in encounter order. -/
def failureList {σ E : Type} (d : Command → σ → σ × Except E Unit) :
    List Command → σ → List E
  | [], _ => []
  | c :: cs, s =>
    match (d c s).2 with
    | Except.ok _ => failureList d cs (d c s).1
    | Except.error e => e :: failureList d cs (d c s).1

theorem runAll_eq {σ E : Type} (d : Command → σ → σ × Except E Unit)
    (cmds : List Command) (s : σ) :
    runAll d cmds s =
      (cmds.foldl (fun st c => (d c st).1) s, failureList d cmds s) := by
  induction cmds generalizing s with
  | nil => rfl
  | cons c cs ih =>
    simp only [runAll, failureList, List.foldl_cons, ih]

/-- Claim C2: `execute_commands` attempts every command in declared order
regardless of earlier failures — its final effect state is the fold of
every command's effect over the whole list — and it returns the success
branch exactly when no command failed, otherwise the error branch
carrying exactly the errors of the failing commands in encounter
order. -/
theorem execute_commands_runs_all_and_orders_errors :
    ∀ (σ E : Type) (ec : Copy → σ → σ × Except E Unit)
      (er : Replace → σ → σ × Except E Unit)
      (eu : Run → σ → σ × Except E Unit)
      (cmds : List Command) (s : σ),
      (execute_commands ec er eu cmds s).1 =
          cmds.foldl (fun st c => (dispatch ec er eu c st).1) s ∧
        ((execute_commands ec er eu cmds s).2 = Except.ok () ↔
          failureList (dispatch ec er eu) cmds s = []) ∧
        (execute_commands ec er eu cmds s).2 =
          (if (failureList (dispatch ec er eu) cmds s).isEmpty then
            Except.ok ()
          else Except.error (failureList (dispatch ec er eu) cmds s)) := by
  intro σ E ec er eu cmds s
  refine ⟨by simp [execute_commands, runAll_eq], ?_, ?_⟩
  · simp only [execute_commands, runAll_eq]
    cases h : failureList (dispatch ec er eu) cmds s <;> simp [h]
  · simp only [execute_commands]
    rw [runAll_eq]

/-- Equality of `Except` results is decidable when both components are;
used to evaluate executor results on concrete inputs. -/
instance {ε α : Type} [DecidableEq ε] [DecidableEq α] :
    DecidableEq (Except ε α) := fun x y =>
  match x, y with
  | Except.ok a, Except.ok b =>
    if h : a = b then isTrue (by rw [h]) else isFalse (by simp [h])
  | Except.error a, Except.error b =>
    if h : a = b then isTrue (by rw [h]) else isFalse (by simp [h])
  | Except.ok _, Except.error _ => isFalse (by simp)
  | Except.error _, Except.ok _ => isFalse (by simp)

/-- Raw file contents, as a byte list. -/
abbrev Bytes := List Nat

/-- A path relative to the copy source, as a list of name components. -/
abbrev RelPath := List Str

/-- A regular file of the source tree: its relative path and bytes. -/
abbrev Entry := RelPath × Bytes

/-- What `copy.source` resolves to on the filesystem: missing, an
existing regular file, or an existing directory whose regular files are
the given entries. -/
inductive PathStatus
  | missing
  | file (content : Bytes)
  | dir (entries : List Entry)
deriving DecidableEq

/-- The error surface of `execute_copy`: the explicit
"No such source directory" error (line 71), or an I/O error propagated by
`?` from `create_dir_all` / `fs::copy` / the walker. -/
inductive CopyError
  | sourceNotFound
  | ioError
deriving DecidableEq

/-- A hidden name: first character is a dot (Unix convention used by the
`ignore` crate's hidden-file filter). -/
def isHiddenName (s : Str) : Bool :=
  match s with
  | [] => false
  | c :: _ => c = '.'

def hasHiddenComponent (p : RelPath) : Bool := p.any isHiddenName

/-- The walker built on the `use_gitignore = false` branch (lines 82-86):
`WalkBuilder::new(source).git_ignore(false).ignore(false).git_global(false)`.
The builder's default hidden-file filter (`hidden(true)`) and
`.git/info/exclude` handling are *not* disabled; for a tree with no
`.git` directory the remaining effective filter is exactly the
hidden-file skip, modelled here: a file is visited iff no component of
its relative path is dot-prefixed. -/
def walkNoIgnore (entries : List Entry) : List Entry :=
  entries.filter (fun e => !hasHiddenComponent e.1)

/-- `execute_copy` of `src/packager_command.rs` (lines 61-115). The
source-existence check (line 70) is `Path::exists`, not `is_dir`. For a
directory source the walk visits files (custom-ignore walker when
`use_gitignore`, modelled by the `customWalk` oracle; the re-configured
default walker otherwise) and each visited file is copied byte-for-byte
to `destination` at its relative path; the returned list is the set of
files written. For a source that exists as a regular file the walker
yields the root itself with empty relative path, so the target path is
`destination + "/"` and `fs::copy` fails with an I/O error, which `?`
propagates. -/
def execute_copy (customWalk : List Entry → List Entry) (c : Copy)
    (src : PathStatus) : Except CopyError (List Entry) :=
  match src with
  | PathStatus.missing => Except.error CopyError.sourceNotFound
  | PathStatus.file _ => Except.error CopyError.ioError
  | PathStatus.dir entries =>
    Except.ok (if c.use_gitignore then customWalk entries
      else walkNoIgnore entries)

/-- Sample copy command with `use_gitignore = false`. -/
def copyNoIgnore : Copy :=
  ⟨"src".toList, "out".toList, ".gitignore".toList, false⟩

/-- Sample tree entries: `a.txt`, `sub/b.txt` and a hidden
`.hidden.txt`. -/
def entryA : Entry := (["a.txt".toList], [1])

def entryB : Entry := (["sub".toList, "b.txt".toList], [2])

def entryHidden : Entry := ([".hidden.txt".toList], [3])

/-- Claim C5, counterexample: copying a tree holding `a.txt`, `sub/b.txt`
and `.hidden.txt` with `use_gitignore = false` writes only the two
non-hidden files — the hidden file is not reproduced, because the
`ignore` walker's default hidden-file filter is left enabled on the
no-ignore branch. -/
theorem copy_no_ignore_skips_hidden_cex :
    execute_copy (fun es => es) copyNoIgnore
        (PathStatus.dir [entryA, entryB, entryHidden]) =
        Except.ok [entryA, entryB] ∧
      entryHidden ∉ [entryA, entryB] := by
  decide

/-- Claim C5, amended: with `use_gitignore = false` the gitignore,
`.ignore` and global-gitignore filters are disabled but the walker's
default hidden-file filter remains, so (in a tree with no `.git`
directory) exactly the files with no dot-prefixed path component are
copied, each with identical byte content; files with a hidden component
are skipped. -/
theorem copy_no_ignore_copies_non_hidden (customWalk : List Entry → List Entry)
    (c : Copy) (entries : List Entry) (e : Entry)
    (h : c.use_gitignore = false) :
    execute_copy customWalk c (PathStatus.dir entries) =
        Except.ok (walkNoIgnore entries) ∧
      (e ∈ walkNoIgnore entries ↔
        e ∈ entries ∧ hasHiddenComponent e.1 = false) := by
  constructor
  · simp [execute_copy, h]
  · simp [walkNoIgnore, List.mem_filter]

/-- Witness for `copy_no_ignore_copies_non_hidden` on the sample tree
and the entry `a.txt`. -/
theorem copy_no_ignore_copies_non_hidden_witness :
    execute_copy (fun es => es) copyNoIgnore
        (PathStatus.dir [entryA, entryB, entryHidden]) =
        Except.ok (walkNoIgnore [entryA, entryB, entryHidden]) ∧
      (entryA ∈ walkNoIgnore [entryA, entryB, entryHidden] ↔
        entryA ∈ [entryA, entryB, entryHidden] ∧
          hasHiddenComponent entryA.1 = false) :=
  copy_no_ignore_copies_non_hidden (fun es => es) copyNoIgnore
    [entryA, entryB, entryHidden] entryA (by decide)

/-- Claim C7, counterexample: when `copy.source` exists but is a regular
file rather than a directory, `execute_copy` does *not* fail with
`SourceNotFound` — the precondition check is `Path::exists`, which the
file passes; the command then fails later with a plain I/O error while
copying to `destination + "/"`. -/
theorem copy_file_source_not_sourceNotFound_cex :
    execute_copy (fun es => es) copyNoIgnore (PathStatus.file [0]) =
        Except.error CopyError.ioError ∧
      CopyError.ioError ≠ CopyError.sourceNotFound := by
  decide

/-- Claim C7, amended: `execute_copy` fails with `SourceNotFound` exactly
when the source path does not exist at all; an existing source — even a
non-directory — passes the `Path::exists` precondition check and never
produces `SourceNotFound`. -/
theorem copy_sourceNotFound_iff_missing
    (customWalk : List Entry → List Entry) (c : Copy) (st : PathStatus) :
    execute_copy customWalk c st = Except.error CopyError.sourceNotFound ↔
      st = PathStatus.missing := by
  cases st <;> simp [execute_copy]

/-- The error surface of `execute_replace`: regex compilation failure
(line 126), glob-pattern expansion failure (line 129), the explicit
"Invalid path. No files found." error (line 137), a glob entry error
during iteration (line 157), and read/write I/O errors. -/
inductive RepErr
  | invalidPattern
  | globExpansion
  | noFilesMatched
  | globEntry
  | ioError
deriving DecidableEq

/-- One path yielded by a successful glob expansion: whether it is a
regular file, the result of `fs::read_to_string` on it, and whether
`fs::write` of the rewritten contents succeeds. -/
structure GlobEntry where
  isFile : Bool
  readContent : Except Unit Str
  writeOk : Bool

/-- The external collaborators of `execute_replace`: the regex compiler
(`Regex::new` succeeds or not) and the glob expansion, which either
fails as a whole (invalid pattern) or yields a list of per-path results,
each itself fallible. -/
structure ReplaceEnv where
  regexCompiles : Str → Bool
  globExpand : Str → Except Unit (List (Except Unit GlobEntry))

/-- The per-entry loop of `execute_replace` (lines 141-160): a failing
glob entry aborts the command; a non-file entry is skipped; a file entry
is read, rewritten and written back, either I/O step aborting the
command on failure. -/
def processEntries : List (Except Unit GlobEntry) → Except RepErr Unit
  | [] => Except.ok ()
  | Except.error _ :: _ => Except.error RepErr.globEntry
  | Except.ok g :: rest =>
    if g.isFile then
      match g.readContent with
      | Except.error _ => Except.error RepErr.ioError
      | Except.ok _ =>
        if g.writeOk then processEntries rest else Except.error RepErr.ioError
    else processEntries rest

/-- `execute_replace` of `src/packager_command.rs` (lines 118-163): the
regex is compiled first (`?` on line 126), then the glob is expanded
(`?` on line 129); a zero-length match vector is the explicit
"No files found" error (lines 136-138); otherwise every entry is
processed in order. -/
def execute_replace (env : ReplaceEnv) (r : Replace) : Except RepErr Unit :=
  if env.regexCompiles r.regex then
    match env.globExpand r.source with
    | Except.error _ => Except.error RepErr.globExpansion
    | Except.ok entries =>
      if entries.length = 0 then Except.error RepErr.noFilesMatched
      else processEntries entries
  else Except.error RepErr.invalidPattern

/-- Environment in which no regex compiles and every glob expands to
zero paths. -/
def badRegexEnv : ReplaceEnv := ⟨fun _ => false, fun _ => Except.ok []⟩

/-- Environment in which every regex compiles and every glob expands to
zero paths. -/
def emptyGlobEnv : ReplaceEnv := ⟨fun _ => true, fun _ => Except.ok []⟩

/-- A Replace command whose regex text `"("` does not compile. -/
def badRegexReplace : Replace :=
  ⟨"*.txt".toList, "(".toList, "y".toList⟩

/-- Claim C6, counterexample: a Replace command whose source glob
expands to zero paths but whose regex `"("` fails to compile is rejected
with `InvalidPattern`, not `NoFilesMatched` — the regex is compiled
before the glob is examined, so the claim's universal "fails with
NoFilesMatched" does not hold for every zero-match command. -/
theorem replace_zero_match_invalid_regex_cex :
    execute_replace badRegexEnv badRegexReplace =
        Except.error RepErr.invalidPattern ∧
      RepErr.invalidPattern ≠ RepErr.noFilesMatched := by
  exact ⟨rfl, by decide⟩

/-- Claim C6, amended: for every Replace command whose regex compiles
and whose source glob expands successfully, a zero-path expansion fails
with `NoFilesMatched`, and the command never returns success unless the
expansion yielded at least one path. (When the regex does not compile
the error is `InvalidPattern` instead, because the regex is compiled
before the glob is expanded.) -/
theorem replace_zero_match_is_error (env : ReplaceEnv) (r : Replace)
    (entries : List (Except Unit GlobEntry))
    (hre : env.regexCompiles r.regex = true)
    (hg : env.globExpand r.source = Except.ok entries) :
    (entries = [] →
        execute_replace env r = Except.error RepErr.noFilesMatched) ∧
      (execute_replace env r = Except.ok () → entries ≠ []) := by
  constructor
  · intro he
    simp [execute_replace, hre, hg, he]
  · intro hok hne
    rw [hne] at hg
    simp [execute_replace, hre, hg] at hok

/-- Witness for `replace_zero_match_is_error`: in `emptyGlobEnv` the
zero-match Replace fails with `NoFilesMatched`. -/
theorem replace_zero_match_is_error_witness :
    execute_replace emptyGlobEnv badRegexReplace =
      Except.error RepErr.noFilesMatched :=
  (replace_zero_match_is_error emptyGlobEnv badRegexReplace [] rfl rfl).1 rfl

/-- Whitespace as recognised by the shell-word splitter. -/
def isWs (c : Char) : Bool := c = ' ' ∨ c = '\t' ∨ c = '\n'

/-- States of the shell-word splitting automaton: between words, inside
an unquoted word, inside single quotes, inside double quotes, and the
two after-backslash states. -/
inductive SMode
  | delim
  | word
  | single
  | double
  | escWord
  | escDouble
deriving DecidableEq

/-- The shell-word splitting automaton (`shell_words::split`): POSIX
word splitting with single quotes (everything literal), double quotes
(backslash escapes `"`, `\`, `$` and backtick), and unquoted backslash
escapes. `none` models the `Err(ParseError)` returned on an unbalanced
quote or a dangling backslash. Arguments: mode, current word, words so
far, remaining input. -/
def splitAux : SMode → Str → List Str → Str → Option (List Str)
  | SMode.delim, _, acc, [] => some acc
  | SMode.delim, _, acc, c :: rest =>
    if isWs c then splitAux SMode.delim [] acc rest
    else if c = aposChar then splitAux SMode.single [] acc rest
    else if c = '"' then splitAux SMode.double [] acc rest
    else if c = '\\' then splitAux SMode.escWord [] acc rest
    else splitAux SMode.word [c] acc rest
  | SMode.word, cur, acc, [] => some (acc ++ [cur])
  | SMode.word, cur, acc, c :: rest =>
    if isWs c then splitAux SMode.delim [] (acc ++ [cur]) rest
    else if c = aposChar then splitAux SMode.single cur acc rest
    else if c = '"' then splitAux SMode.double cur acc rest
    else if c = '\\' then splitAux SMode.escWord cur acc rest
    else splitAux SMode.word (cur ++ [c]) acc rest
  | SMode.single, _, _, [] => none
  | SMode.single, cur, acc, c :: rest =>
    if c = aposChar then splitAux SMode.word cur acc rest
    else splitAux SMode.single (cur ++ [c]) acc rest
  | SMode.double, _, _, [] => none
  | SMode.double, cur, acc, c :: rest =>
    if c = '"' then splitAux SMode.word cur acc rest
    else if c = '\\' then splitAux SMode.escDouble cur acc rest
    else splitAux SMode.double (cur ++ [c]) acc rest
  | SMode.escWord, _, _, [] => none
  | SMode.escWord, cur, acc, c :: rest => splitAux SMode.word (cur ++ [c]) acc rest
  | SMode.escDouble, _, _, [] => none
  | SMode.escDouble, cur, acc, c :: rest =>
    if c = '"' ∨ c = '\\' ∨ c = dollarChar ∨ c = backtickChar then
      splitAux SMode.double (cur ++ [c]) acc rest
    else splitAux SMode.double (cur ++ ['\\', c]) acc rest

/-- `shell_words::split` (line 171): `none` is the `Err` case that the
source immediately `unwrap`s. -/
def shellSplit (s : Str) : Option (List Str) :=
  splitAux SMode.delim [] [] s

/-- What a launched process reports back: only the exit status matters
to `execute_run` (captured stdout/stderr are logged, not inspected). -/
structure ProcOutput where
  success : Bool
deriving DecidableEq

/-- The observable outcomes of `execute_run`: a panic of the whole
process (`unwrap` / index / `expect`), `Ok(())`, or the
`command failed with status` error. -/
inductive RunOutcome
  | panicked
  | ok
  | failed
deriving DecidableEq

/-- `execute_run` of `src/packager_command.rs` (lines 166-196), with
process launching as an oracle `launch program args`; `none` means the
program could not even be launched. The source, in order: (1)
`shell_words::split(command).unwrap()` — a split error panics; (2)
`&words[0]` — an empty word list panics with an index out of bounds;
(3) direct launch, with `or_else` falling back to (non-Windows branch)
`Command::new("sh").arg("-c").args(words)` — note the *split words* are
passed as separate arguments; (4) `.expect(...)` — a launch failure of
the fallback itself panics; (5) a launched process's exit status decides
`Ok` versus the `command failed` error. -/
def execute_run (launch : Str → List Str → Option ProcOutput)
    (r : Run) : RunOutcome :=
  match shellSplit r.command with
  | none => RunOutcome.panicked
  | some [] => RunOutcome.panicked
  | some (w :: ws) =>
    match
      (match launch w ws with
        | some o => some o
        | none => launch ("sh".toList) ("-c".toList :: w :: ws)) with
    | none => RunOutcome.panicked
    | some o => if o.success then RunOutcome.ok else RunOutcome.failed

/-- A Run command string that is not empty, not all-whitespace and has
balanced quotes, so that none of the panic paths of `execute_run` fire
before the launch attempts. -/
def plainRunStr : Str := "a b".toList

/-- An unbalanced-quote command string: a single quote followed by `x`. -/
def unbalancedQuoteStr : Str := [aposChar, 'x']

/-- Claim C10: `execute_run` is not total over Run inputs — it panics
(instead of returning a `RunError`) on an empty command string, on an
all-whitespace command string (both hit `words[0]` with an empty split),
on an unbalanced quote (the `unwrap` of the shell-word split), and on a
command whose direct launch *and* fallback shell launch both fail (the
final `expect`). -/
theorem execute_run_panics (launch : Str → List Str → Option ProcOutput)
    (cmd : Str) (w : Str) (ws : List Str)
    (hsplit : shellSplit cmd = some (w :: ws))
    (hdirect : launch w ws = none)
    (hsh : launch ("sh".toList) ("-c".toList :: w :: ws) = none) :
    execute_run launch ⟨"".toList⟩ = RunOutcome.panicked ∧
      execute_run launch ⟨"  ".toList⟩ = RunOutcome.panicked ∧
      execute_run launch ⟨unbalancedQuoteStr⟩ = RunOutcome.panicked ∧
      execute_run launch ⟨cmd⟩ = RunOutcome.panicked := by
  refine ⟨rfl, rfl, rfl, ?_⟩
  have hsh' : launch ['s', 'h'] (['-', 'c'] :: w :: ws) = none := hsh
  simp [execute_run, hsplit, hdirect, hsh']

/-- Witness for `execute_run_panics`: the environment in which nothing
can be launched, and the command `"a b"`. -/
theorem execute_run_panics_witness :
    execute_run (fun _ _ => none) ⟨plainRunStr⟩ = RunOutcome.panicked :=
  (execute_run_panics (fun _ _ => none) plainRunStr ("a".toList)
    ["b".toList] (by decide) rfl rfl).2.2.2

/-- The process environment of the Run-fallback scenario, modelled after
POSIX shell semantics: `wc` exists as a directly launchable program;
`nocmd` does not exist, so launching it directly fails; `sh` exists, and
`sh -c script arg...` runs only `script` as the command (the remaining
operands become positional parameters, *not* part of the script), so it
reports success only when the script names an existing program — the
bare token `nocmd` yields a "command not found" (status 127) failure. -/
def pipeEnv : Str → List Str → Option ProcOutput := fun prog args =>
  if prog = "sh".toList then
    match args with
    | c :: script :: _ =>
      if c = "-c".toList then
        if script = "wc".toList then some ⟨true⟩ else some ⟨false⟩
      else none
    | _ => none
  else if prog = "wc".toList then some ⟨true⟩
  else none

/-- The pipeline command string of the claim: its first token is not a
launchable program, but the whole line is a valid shell pipeline. -/
def pipeCmdStr : Str := "nocmd | wc -l".toList

/-- Claim C4: the spec requires a Run whose command string is not a
directly launchable program but a valid shell pipeline to succeed via
the shell fallback. The code's fallback passes the *split tokens* as
separate `sh` arguments (`sh -c nocmd | wc -l` as five argv entries), so
the shell executes only the first token as the script and the tokens
after it become positional parameters; the script `nocmd` is not a
program, the shell exits with failure, and `execute_run` returns the
`command failed` error instead of succeeding. The second conjunct
records the split, fixing the exact argv handed to the fallback. -/
theorem run_fallback_pipeline_fails :
    execute_run pipeEnv ⟨pipeCmdStr⟩ = RunOutcome.failed ∧
      shellSplit pipeCmdStr =
        some ["nocmd".toList, "|".toList, "wc".toList, "-l".toList] := by
  exact ⟨rfl, by decide⟩

/-- Observable outcomes of loading a configuration: a decoded `Config`,
the `IOError` propagated from reading the file, a process panic (the
`unwrap` inside `deserialize_config`), or a substitution that never
terminates (fuel exhausted). -/
inductive LoadOut
  | ok (c : Config)
  | ioError
  | panicked
  | diverged
deriving DecidableEq

/-- `deserialize_config` of `src/packager_command.rs` (lines 324-326):
`Ok(serde_yaml::from_str(yaml).unwrap())`. The YAML decoder is the
oracle `parse`; when it returns an error the source `unwrap`s it and the
process panics — no `DecodeError` value is ever produced. -/
def deserialize_config (parse : Str → Except Unit Config) (y : Str) :
    LoadOut :=
  match parse y with
  | Except.ok c => LoadOut.ok c
  | Except.error _ => LoadOut.panicked

/-- The document-processing part of `parse_commands_from_yaml`
(lines 231-293), after the file has been read: with `if_use_define` the
original text is decoded once (panicking on a decode error), the name
table is built from its `define_items`, the *entire document text* is
substituted against the final table, and the substituted text is decoded
again; without `if_use_define` the text is decoded directly. -/
def loadDoc (parse : Str → Except Unit Config) (fuel : Nat)
    (content : Str) (if_use_define : Bool) : LoadOut :=
  if if_use_define then
    match parse content with
    | Except.error _ => LoadOut.panicked
    | Except.ok config =>
      match buildNameTable fuel config.define_items with
      | none => LoadOut.diverged
      | some t =>
        match substitute_variables fuel content t with
        | none => LoadOut.diverged
        | some txt =>
          match parse txt with
          | Except.error _ => LoadOut.panicked
          | Except.ok c => LoadOut.ok c
  else
    match parse content with
    | Except.error _ => LoadOut.panicked
    | Except.ok c => LoadOut.ok c

/-- `parse_commands_from_yaml` of `src/packager_command.rs`
(lines 227-294): `fs::read_to_string(file_path)?` — a read failure
propagates as the `IOError` of the `Result` — followed by the document
processing above. -/
def parse_commands_from_yaml (parse : Str → Except Unit Config)
    (readFile : Str → Except Unit Str) (fuel : Nat) (file_path : Str)
    (if_use_define : Bool) : LoadOut :=
  match readFile file_path with
  | Except.error _ => LoadOut.ioError
  | Except.ok content => loadDoc parse fuel content if_use_define

/-- The already-substituted document `D'` corresponding to a document
`D`, following the spec's words for the round-trip property: the result
of resolving the definition table of `D` and substituting the entire
document text against it. -/
def substitutedDocument (parse : Str → Except Unit Config) (fuel : Nat)
    (content : Str) : Option Str :=
  match parse content with
  | Except.error _ => none
  | Except.ok config =>
    (buildNameTable fuel config.define_items).bind
      (fun t => substitute_variables fuel content t)

/-- Claim C8: loading does return `IOError` when the file cannot be
read (`?` on `fs::read_to_string`), but when the text is not valid
structured data `deserialize_config` does not return a `DecodeError`
value — it `unwrap`s the decoder's error and the process panics. -/
theorem load_read_error_and_decode_panic
    (parse : Str → Except Unit Config) (readFile : Str → Except Unit Str)
    (fuel : Nat) (file_path y : Str) (if_use_define : Bool)
    (hr : readFile file_path = Except.error ())
    (hp : parse y = Except.error ()) :
    parse_commands_from_yaml parse readFile fuel file_path if_use_define =
        LoadOut.ioError ∧
      deserialize_config parse y = LoadOut.panicked := by
  constructor
  · simp [parse_commands_from_yaml, hr]
  · simp [deserialize_config, hp]

/-- Witness for `load_read_error_and_decode_panic`: an unreadable file
gives `IOError`; a text every decoder run rejects makes
`deserialize_config` panic. -/
theorem load_read_error_and_decode_panic_witness :
    parse_commands_from_yaml (fun _ => Except.error ())
        (fun _ => Except.error ()) 1 ("config.yml".toList) true =
        LoadOut.ioError ∧
      deserialize_config (fun _ => Except.error ())
        ("not: valid: yaml".toList) = LoadOut.panicked :=
  load_read_error_and_decode_panic (fun _ => Except.error ())
    (fun _ => Except.error ()) 1 ("config.yml".toList)
    ("not: valid: yaml".toList) true rfl rfl

/-- Claim C9: whenever loading a document `D` with `use_define = true`
succeeds with configuration `c`, loading the corresponding
already-substituted document `D'` (the full-text substitution of `D` by
its resolved name table) with `use_define = false` yields the same
configuration `c`: the `use_define` pipeline is exactly
"substitute the text, then decode it as an already-resolved document". -/
theorem load_round_trip (parse : Str → Except Unit Config) (fuel : Nat)
    (content txt : Str) (c : Config)
    (h1 : loadDoc parse fuel content true = LoadOut.ok c)
    (h2 : substitutedDocument parse fuel content = some txt) :
    loadDoc parse fuel txt false = LoadOut.ok c := by
  cases hp : parse content with
  | error e => simp [loadDoc, hp] at h1
  | ok config =>
    cases hbt : buildNameTable fuel config.define_items with
    | none => simp [loadDoc, hp, hbt] at h1
    | some t =>
      cases hs : substitute_variables fuel content t with
      | none => simp [loadDoc, hp, hbt, hs] at h1
      | some txt2 =>
        have h2' : txt2 = txt := by
          simp [substitutedDocument, hp, hbt, hs] at h2
          exact h2
        cases hp2 : parse txt2 with
        | error e => simp [loadDoc, hp, hbt, hs, hp2] at h1
        | ok c2 =>
          have hc : c2 = c := by
            simp [loadDoc, hp, hbt, hs, hp2] at h1
            exact h1
          simp [loadDoc, ← h2', hp2, hc]

/-- The decoder oracle of the round-trip witness: the raw document
`"${A}"` decodes to a configuration defining `A = "v"`; the substituted
document `"v"` decodes to the final configuration. Any other text is
a decode error. -/
def roundTripParse : Str → Except Unit Config := fun s =>
  if s = "${A}".toList then
    Except.ok ⟨[⟨"A".toList, "v".toList⟩], []⟩
  else if s = "v".toList then
    Except.ok ⟨[⟨"A".toList, "v".toList⟩], [Command.run ⟨"v".toList⟩]⟩
  else Except.error ()

/-- Witness for `load_round_trip` on the document `"${A}"` with the
decoder `roundTripParse`. -/
theorem load_round_trip_witness :
    loadDoc roundTripParse 4 ("v".toList) false =
      LoadOut.ok ⟨[⟨"A".toList, "v".toList⟩], [Command.run ⟨"v".toList⟩]⟩ :=
  load_round_trip roundTripParse 4 ("${A}".toList) ("v".toList)
    ⟨[⟨"A".toList, "v".toList⟩], [Command.run ⟨"v".toList⟩]⟩
    (by decide) (by decide)

end Autopackager
